import Mathlib

/-!
Verification of the "Powers of 10" zoom/transition viewer core.

Shallow embedding conventions:
* Python floats are modelled as exact rationals (`ℚ`); the one place where the
  spec is about real-valued exponentiation (`rate ** dt`) is modelled over `ℝ`.
* Millisecond timestamps from `pygame.time.get_ticks()` are passed explicitly
  as `ℚ` arguments to the methods that read the clock.
* Python `/` on floats raises `ZeroDivisionError` for a zero denominator; where
  that behaviour is the point of a claim the embedded function returns
  `Option ℚ` (`none` = exception).  Elsewhere denominators are kept nonzero by
  the theorems' hypotheses.
* Python `int(x)` truncates toward zero; `pyTrunc` models it exactly.
* Python strings ('in', 'out', 'forward', 'backward', ...) are Lean `String`s.
-/

/-- Python `int(x)` for a float `x`: truncation toward zero. -/
def pyTrunc (q : ℚ) : ℤ :=
  if 0 ≤ q then ⌊q⌋ else -⌊-q⌋

/-- Python list indexing `l[i]`: nonnegative indices from the front, negative
indices from the back, `none` models an `IndexError`. -/
def pyGet {α : Type} (l : List α) (i : ℤ) : Option α :=
  if 0 ≤ i then l.get? i.toNat
  else if 0 ≤ (l.length : ℤ) + i then l.get? ((l.length : ℤ) + i).toNat
  else none

/-- State of `ZoomController` (src/zoom_controller.py).  `animation_start_time`
is `None` in Python until `start_zoom_animation` first sets it and is only read
while `is_animating`; it is modelled as a plain `ℚ` initialised to `0`. -/
structure ZoomController where
  scale : ℚ
  min_scale : ℚ
  current_max_scale : ℚ
  animation_duration : ℚ
  target_scale : ℚ
  start_scale : ℚ
  animation_start_time : ℚ
  is_animating : Bool
  step_zoom_factor : ℚ
  continuous_zoom_rate : ℚ
  continuous_zoom_active : Bool
deriving DecidableEq, Repr

/-- `ZoomController.__init__`. -/
def ZoomController.init : ZoomController where
  scale := 1
  min_scale := 1
  current_max_scale := 1
  animation_duration := 300
  target_scale := 1
  start_scale := 1
  animation_start_time := 0
  is_animating := false
  step_zoom_factor := 13/10
  continuous_zoom_rate := 2
  continuous_zoom_active := false

/-- `start_zoom_animation(target_scale)`; the optional `start_scale` argument
defaults to `None` and every caller omits it, so `start_scale` is taken from
the current scale.  `now` is `pygame.time.get_ticks()`. -/
def ZoomController.start_zoom_animation (st : ZoomController) (target_scale : ℚ)
    (now : ℚ) : ZoomController :=
  { st with
    is_animating := true
    animation_start_time := now
    target_scale := target_scale
    start_scale := st.scale }

/-- `zoom_step(direction)`: a direction other than 'in'/'out' returns early. -/
def ZoomController.zoom_step (st : ZoomController) (direction : String)
    (now : ℚ) : ZoomController :=
  if direction = "in" then
    st.start_zoom_animation (st.scale * st.step_zoom_factor) now
  else if direction = "out" then
    st.start_zoom_animation (st.scale / st.step_zoom_factor) now
  else
    st

/-- `zoom_continuous(direction, dt)` with the float power
`zoom_factor = continuous_zoom_rate ** dt` passed in as a parameter, because
the power is irrational for fractional `dt`; `continuous_zoom_scale` below
gives the exact real-valued semantics of the factor computation. -/
def ZoomController.zoom_continuous (st : ZoomController) (direction : String)
    (zoom_factor : ℚ) : ZoomController :=
  let st' :=
    if direction = "in" then { st with scale := st.scale * zoom_factor }
    else if direction = "out" then { st with scale := st.scale / zoom_factor }
    else st
  { st' with continuous_zoom_active := true }

/-- Real-valued semantics of one `zoom_continuous(direction, dt)` call on the
scale, exactly as the source computes it: `zoom_factor = rate ** dt`, then
multiply (in) or divide (out).  `rate` is `self.continuous_zoom_rate = 2.0`. -/
noncomputable def ZoomController.continuous_zoom_scale (scale : ℝ)
    (direction : String) (dt : ℝ) : ℝ :=
  let zoom_factor : ℝ := (2 : ℝ) ^ dt
  if direction = "in" then scale * zoom_factor
  else if direction = "out" then scale / zoom_factor
  else scale

/-- `_check_boundaries()`. -/
def ZoomController.check_boundaries (st : ZoomController) : Option String :=
  if st.scale > st.current_max_scale then some "forward"
  else if st.scale < st.min_scale then some "backward"
  else none

/-- `update_step_animation()`; returns the new state and the boundary info.
In Python `if swapped:` is true exactly when the returned value is not `None`
(both possible strings are nonempty, hence truthy). -/
def ZoomController.update_step_animation (st : ZoomController) (now : ℚ) :
    ZoomController × Option String :=
  let elapsed := now - st.animation_start_time
  let animation_progress := min 1 (elapsed / st.animation_duration)
  if animation_progress ≥ 1 then
    let st' := { st with is_animating := false, scale := st.target_scale }
    (st', st'.check_boundaries)
  else
    let st' := { st with
      scale := st.start_scale + (st.target_scale - st.start_scale) * animation_progress }
    let swapped := st'.check_boundaries
    if swapped.isSome then ({ st' with is_animating := false }, swapped)
    else (st', swapped)

/-- `update()`. -/
def ZoomController.update (st : ZoomController) (now : ℚ) :
    ZoomController × Option String :=
  if st.is_animating then
    st.update_step_animation now
  else if st.continuous_zoom_active then
    ({ st with continuous_zoom_active := false }, st.check_boundaries)
  else
    (st, none)

/-- `set_max_scale(max_scale)`. -/
def ZoomController.set_max_scale (st : ZoomController) (max_scale : ℚ) :
    ZoomController :=
  { st with current_max_scale := max_scale }

/-- `clamp_scale()`. -/
def ZoomController.clamp_scale (st : ZoomController) : ZoomController :=
  if st.scale > st.current_max_scale then { st with scale := st.current_max_scale }
  else if st.scale < st.min_scale then { st with scale := st.min_scale }
  else st

/-- `reset_to_min()`. -/
def ZoomController.reset_to_min (st : ZoomController) : ZoomController :=
  { st with scale := st.min_scale }

/-- `reset_to_max()`. -/
def ZoomController.reset_to_max (st : ZoomController) : ZoomController :=
  { st with scale := st.current_max_scale }

/-- `get_normalized_zoom()`: the source divides by
`current_max_scale - min_scale` with no guard; a zero denominator raises
`ZeroDivisionError` in Python, modelled by `none`. -/
def ZoomController.get_normalized_zoom (st : ZoomController) : Option ℚ :=
  if st.current_max_scale - st.min_scale = 0 then none
  else some ((st.scale - st.min_scale) / (st.current_max_scale - st.min_scale))

/-- C1: on a freshly constructed controller (equivalently, any image without a
target rectangle, where `current_max_scale = min_scale = 1.0`),
`get_normalized_zoom` does NOT return the defined result `0.0`: it divides by
zero (`ZeroDivisionError`, modelled as `none`).  The claim's required guard is
absent from the source. -/
theorem get_normalized_zoom_divides_by_zero_at_equal_bounds :
    ZoomController.init.get_normalized_zoom = none ∧
      ZoomController.init.get_normalized_zoom ≠ some 0 := by
  constructor <;>
    simp [ZoomController.get_normalized_zoom, ZoomController.init]

/-- C10: `zoom_step` with a direction other than 'in' or 'out' is a complete
no-op: the controller state (scale, is_animating, target_scale, start_scale
and every other field) is returned unchanged and no animation starts. -/
theorem zoom_step_unknown_direction_noop (st : ZoomController)
    (direction : String) (now : ℚ) (h1 : direction ≠ "in")
    (h2 : direction ≠ "out") :
    st.zoom_step direction now = st := by
  unfold ZoomController.zoom_step
  rw [if_neg h1, if_neg h2]

/-- Witness for C10 at the direction 'sideways' on a fresh controller. -/
theorem zoom_step_unknown_direction_noop_witness :
    "sideways" ≠ "in" ∧ "sideways" ≠ "out" ∧
      ZoomController.init.zoom_step "sideways" 7 = ZoomController.init :=
  ⟨by decide, by decide,
    zoom_step_unknown_direction_noop ZoomController.init "sideways" 7
      (by decide) (by decide)⟩

/-- Scale produced by `update_step_animation` as a closed formula: the
interpolation `start + (target - start) * min 1 (elapsed/duration)`, snapped
to `target` once the clamped progress reaches `1`. -/
theorem ZoomController.update_step_animation_scale (st : ZoomController)
    (now : ℚ) :
    (st.update_step_animation now).1.scale =
      if 1 ≤ min 1 ((now - st.animation_start_time) / st.animation_duration)
      then st.target_scale
      else st.start_scale + (st.target_scale - st.start_scale) *
        min 1 ((now - st.animation_start_time) / st.animation_duration) := by
  simp only [ZoomController.update_step_animation, ge_iff_le]
  split
  · rfl
  · split <;> rfl

/-- Interpolation bookkeeping (`start_scale`, `target_scale`,
`animation_start_time`, `animation_duration`, `min_scale`,
`current_max_scale`) is never modified by `update_step_animation`. -/
theorem ZoomController.update_step_animation_fields (st : ZoomController)
    (now : ℚ) :
    (st.update_step_animation now).1.start_scale = st.start_scale ∧
    (st.update_step_animation now).1.target_scale = st.target_scale ∧
    (st.update_step_animation now).1.animation_start_time = st.animation_start_time ∧
    (st.update_step_animation now).1.animation_duration = st.animation_duration ∧
    (st.update_step_animation now).1.min_scale = st.min_scale ∧
    (st.update_step_animation now).1.current_max_scale = st.current_max_scale := by
  simp only [ZoomController.update_step_animation, ge_iff_le]
  split
  · exact ⟨rfl, rfl, rfl, rfl, rfl, rfl⟩
  · split <;> exact ⟨rfl, rfl, rfl, rfl, rfl, rfl⟩

/-- The boundary info returned by `update_step_animation` is exactly
`check_boundaries` of the returned (mutated) state, and the animation stays
alive exactly when progress is below `1` and no boundary fired. -/
theorem ZoomController.update_step_animation_boundary (st : ZoomController)
    (now : ℚ) (ha : st.is_animating = true) :
    (st.update_step_animation now).2 =
      (st.update_step_animation now).1.check_boundaries ∧
    ((st.update_step_animation now).1.is_animating = true ↔
      min 1 ((now - st.animation_start_time) / st.animation_duration) < 1 ∧
      (st.update_step_animation now).2 = none) := by
  simp only [ZoomController.update_step_animation, ge_iff_le]
  split
  · rename_i h
    refine ⟨rfl, ?_⟩
    simp only [not_lt.mpr h]
    simp
  · rename_i h
    split
    · rename_i hsw
      refine ⟨rfl, ?_⟩
      simp only [Option.isSome_iff_exists] at hsw
      obtain ⟨v, hv⟩ := hsw
      refine iff_of_false (by simp) ?_
      rintro ⟨-, hn⟩
      exact Option.some_ne_none v (hv.symm.trans hn)
    · rename_i hsw
      have hnone := Option.not_isSome_iff_eq_none.mp hsw
      refine ⟨rfl, ?_⟩
      constructor
      · intro _
        exact ⟨lt_of_not_le h, hnone⟩
      · intro _
        exact ha

/-- Characterization of `_check_boundaries` when the bounds are ordered
(`min_scale ≤ current_max_scale`, the invariant of every real image). -/
theorem ZoomController.check_boundaries_spec (st : ZoomController)
    (hmm : st.min_scale ≤ st.current_max_scale) :
    (st.check_boundaries = some "forward" ↔ st.current_max_scale < st.scale) ∧
    (st.check_boundaries = some "backward" ↔ st.scale < st.min_scale) ∧
    (st.check_boundaries = none ↔
      st.min_scale ≤ st.scale ∧ st.scale ≤ st.current_max_scale) := by
  unfold ZoomController.check_boundaries
  split_ifs with h1 h2
  · exact ⟨iff_of_true rfl h1,
      iff_of_false (by decide) (not_lt.mpr (by linarith)),
      iff_of_false (by decide) (fun h => absurd h1 (not_lt.mpr h.2))⟩
  · exact ⟨iff_of_false (by decide) h1,
      iff_of_true rfl h2,
      iff_of_false (by decide) (fun h => absurd h2 (not_lt.mpr h.1))⟩
  · exact ⟨iff_of_false (by decide) h1,
      iff_of_false (by decide) h2,
      iff_of_true rfl ⟨not_lt.mp h2, not_lt.mp h1⟩⟩

/-- C5: a step-zoom animation interpolates monotonically toward
`target_scale` — strictly increasing samples when `target > start`, strictly
decreasing when `target < start` — it equals exactly `target_scale` for every
elapsed time at or beyond `animation_duration` (the `min(1, elapsed/duration)`
clamp), it never overshoots past `target_scale`, and no update call disturbs
the interpolation endpoints. -/
theorem step_animation_monotone_convergence (st : ZoomController)
    (hd : 0 < st.animation_duration) (t₁ t₂ : ℚ) :
    ((st.update_step_animation t₁).1.start_scale = st.start_scale ∧
     (st.update_step_animation t₁).1.target_scale = st.target_scale ∧
     (st.update_step_animation t₁).1.animation_start_time = st.animation_start_time ∧
     (st.update_step_animation t₁).1.animation_duration = st.animation_duration) ∧
    (st.start_scale < st.target_scale → 0 ≤ t₁ - st.animation_start_time →
      t₁ - st.animation_start_time < st.animation_duration → t₁ < t₂ →
      (st.update_step_animation t₁).1.scale < (st.update_step_animation t₂).1.scale) ∧
    (st.target_scale < st.start_scale → 0 ≤ t₁ - st.animation_start_time →
      t₁ - st.animation_start_time < st.animation_duration → t₁ < t₂ →
      (st.update_step_animation t₂).1.scale < (st.update_step_animation t₁).1.scale) ∧
    (st.animation_duration ≤ t₁ - st.animation_start_time →
      (st.update_step_animation t₁).1.scale = st.target_scale) ∧
    (0 ≤ t₁ - st.animation_start_time →
      min st.start_scale st.target_scale ≤ (st.update_step_animation t₁).1.scale ∧
      (st.update_step_animation t₁).1.scale ≤ max st.start_scale st.target_scale) := by
  obtain ⟨f1, f2, f3, f4, -, -⟩ := st.update_step_animation_fields t₁
  refine ⟨⟨f1, f2, f3, f4⟩, ?_, ?_, ?_, ?_⟩ <;>
    rw [ZoomController.update_step_animation_scale] <;>
    try rw [ZoomController.update_step_animation_scale]
  · intro hst h0 h1 hlt
    have he1 : (t₁ - st.animation_start_time) / st.animation_duration < 1 :=
      (div_lt_one hd).mpr h1
    have hq0 : 0 ≤ (t₁ - st.animation_start_time) / st.animation_duration :=
      div_nonneg h0 hd.le
    rw [if_neg (not_le.mpr (lt_of_le_of_lt (min_le_right _ _) he1)),
      min_eq_right he1.le]
    rcases le_or_lt 1 ((t₂ - st.animation_start_time) / st.animation_duration) with h2 | h2
    · rw [if_pos (le_min le_rfl h2)]
      nlinarith [mul_pos (sub_pos.mpr hst) (sub_pos.mpr he1)]
    · rw [if_neg (not_le.mpr (lt_of_le_of_lt (min_le_right _ _) h2)),
        min_eq_right h2.le]
      have hq : (t₁ - st.animation_start_time) / st.animation_duration <
          (t₂ - st.animation_start_time) / st.animation_duration :=
        (div_lt_div_iff₀ hd hd).mpr (by nlinarith)
      nlinarith [mul_lt_mul_of_pos_left hq (sub_pos.mpr hst)]
  · intro hst h0 h1 hlt
    have he1 : (t₁ - st.animation_start_time) / st.animation_duration < 1 :=
      (div_lt_one hd).mpr h1
    have hq0 : 0 ≤ (t₁ - st.animation_start_time) / st.animation_duration :=
      div_nonneg h0 hd.le
    rw [if_neg (not_le.mpr (lt_of_le_of_lt (min_le_right _ _) he1)),
      min_eq_right he1.le]
    rcases le_or_lt 1 ((t₂ - st.animation_start_time) / st.animation_duration) with h2 | h2
    · rw [if_pos (le_min le_rfl h2)]
      nlinarith [mul_pos (sub_pos.mpr hst) (sub_pos.mpr he1)]
    · rw [if_neg (not_le.mpr (lt_of_le_of_lt (min_le_right _ _) h2)),
        min_eq_right h2.le]
      have hq : (t₁ - st.animation_start_time) / st.animation_duration <
          (t₂ - st.animation_start_time) / st.animation_duration :=
        (div_lt_div_iff₀ hd hd).mpr (by nlinarith)
      nlinarith [mul_lt_mul_of_pos_left hq (sub_pos.mpr hst)]
  · intro h1
    rw [if_pos (le_min le_rfl ((one_le_div hd).mpr h1))]
  · intro h0
    have hq0 : 0 ≤ (t₁ - st.animation_start_time) / st.animation_duration :=
      div_nonneg h0 hd.le
    have hp0 : 0 ≤ min 1 ((t₁ - st.animation_start_time) / st.animation_duration) :=
      le_min (by norm_num) hq0
    have hp1 : min 1 ((t₁ - st.animation_start_time) / st.animation_duration) ≤ 1 :=
      min_le_left _ _
    split_ifs with hc
    · exact ⟨min_le_right _ _, le_max_right _ _⟩
    · rcases le_total st.start_scale st.target_scale with h | h
      · rw [min_eq_left h, max_eq_right h]
        constructor
        · nlinarith [mul_nonneg (sub_nonneg.mpr h) hp0]
        · nlinarith [mul_le_mul_of_nonneg_left hp1 (sub_nonneg.mpr h)]
      · rw [min_eq_right h, max_eq_left h]
        constructor
        · nlinarith [mul_le_mul_of_nonpos_left hp1 (sub_nonpos.mpr h)]
        · nlinarith [mul_nonneg (neg_nonneg.mpr (sub_nonpos.mpr h)) hp0]
  
/-- Concrete animation state for the C5 witness: animating from scale 1.0
toward 1.3 with the 300 ms duration, started at time 0. -/
def stepAnimEx : ZoomController :=
  { ZoomController.init with
    is_animating := true
    target_scale := 13/10
    current_max_scale := 3
    animation_start_time := 0 }

/-- Witness for C5 at elapsed times 100 and 200 of the concrete animation. -/
theorem step_animation_monotone_convergence_witness :
    0 < stepAnimEx.animation_duration ∧
      (stepAnimEx.start_scale < stepAnimEx.target_scale →
        0 ≤ (100:ℚ) - stepAnimEx.animation_start_time →
        (100:ℚ) - stepAnimEx.animation_start_time < stepAnimEx.animation_duration →
        (100:ℚ) < 200 →
        (stepAnimEx.update_step_animation 100).1.scale <
          (stepAnimEx.update_step_animation 200).1.scale) :=
  ⟨by norm_num [stepAnimEx, ZoomController.init],
    (step_animation_monotone_convergence stepAnimEx
      (by norm_num [stepAnimEx, ZoomController.init]) 100 200).2.1⟩

/-- C4: `update()` runs the boundary check after every scale mutation: in the
step-animation branch the returned boundary info is exactly
`_check_boundaries` of the freshly mutated state, and in the continuous-zoom
branch it is `_check_boundaries` of the scale mutated earlier in the frame;
the event is `forward` exactly when the post-mutation scale exceeds
`current_max_scale`, `backward` exactly when it is below `min_scale`, `None`
otherwise; and an in-flight step animation is cancelled (`is_animating` set
false) the instant the interpolated scale crosses a boundary, not only at
full completion. -/
theorem update_boundary_characterization (st : ZoomController) (now : ℚ)
    (hmm : st.min_scale ≤ st.current_max_scale) :
    (st.is_animating = true →
      st.update now = st.update_step_animation now ∧
      (st.update now).2 = (st.update now).1.check_boundaries ∧
      ((st.update now).2 = some "forward" ↔
        st.current_max_scale < (st.update now).1.scale) ∧
      ((st.update now).2 = some "backward" ↔
        (st.update now).1.scale < st.min_scale) ∧
      ((st.update now).2 = none ↔
        st.min_scale ≤ (st.update now).1.scale ∧
        (st.update now).1.scale ≤ st.current_max_scale) ∧
      ((st.update now).1.is_animating = true ↔
        min 1 ((now - st.animation_start_time) / st.animation_duration) < 1 ∧
        (st.update now).2 = none)) ∧
    (st.is_animating = false → st.continuous_zoom_active = true →
      st.update now = ({ st with continuous_zoom_active := false },
        st.check_boundaries) ∧
      ((st.update now).2 = some "forward" ↔ st.current_max_scale < st.scale) ∧
      ((st.update now).2 = some "backward" ↔ st.scale < st.min_scale) ∧
      ((st.update now).2 = none ↔
        st.min_scale ≤ st.scale ∧ st.scale ≤ st.current_max_scale)) ∧
    (st.is_animating = false → st.continuous_zoom_active = false →
      st.update now = (st, none)) := by
  refine ⟨?_, ?_, ?_⟩
  · intro ha
    have hupd : st.update now = st.update_step_animation now := by
      simp [ZoomController.update, ha]
    obtain ⟨hb, hanim⟩ := st.update_step_animation_boundary now ha
    obtain ⟨-, -, -, -, h5, h6⟩ := st.update_step_animation_fields now
    have hspec := ZoomController.check_boundaries_spec
      (st.update_step_animation now).1 (by rw [h5, h6]; exact hmm)
    rw [h5, h6] at hspec
    rw [← hb] at hspec
    rw [hupd]
    exact ⟨rfl, hb, hspec.1, hspec.2.1, hspec.2.2, hanim⟩
  · intro hna hca
    have hupd : st.update now =
        ({ st with continuous_zoom_active := false }, st.check_boundaries) := by
      simp [ZoomController.update, hna, hca]
    have hspec := ZoomController.check_boundaries_spec st hmm
    rw [hupd]
    exact ⟨rfl, hspec.1, hspec.2.1, hspec.2.2⟩
  · intro hna hca
    simp [ZoomController.update, hna, hca]

/-- Witness for C4: the concrete animating state `stepAnimEx` sampled 150 ms
in; the interpolated scale 1.15 stays inside [1, 3], so no boundary fires and
the animation stays alive. -/
theorem update_boundary_characterization_witness :
    stepAnimEx.min_scale ≤ stepAnimEx.current_max_scale ∧
      stepAnimEx.is_animating = true ∧
      (stepAnimEx.update 150).2 = (stepAnimEx.update 150).1.check_boundaries :=
  ⟨by norm_num [stepAnimEx, ZoomController.init], rfl,
    ((update_boundary_characterization stepAnimEx 150
      (by norm_num [stepAnimEx, ZoomController.init])).1 rfl).2.1⟩

/-- C6: continuous zoom is frame-rate independent over exact real arithmetic:
ten consecutive `zoom_continuous('in', dt=0.1)` calls produce exactly the same
scale as a single `zoom_continuous('in', dt=1.0)` call, for every starting
scale, because each call multiplies the scale by `rate ** dt` with
`rate = 2.0`. -/
theorem continuous_zoom_frame_rate_independence (s : ℝ) :
    (fun x => ZoomController.continuous_zoom_scale x "in" (1/10))^[10] s =
      ZoomController.continuous_zoom_scale s "in" 1 := by
  have hstep : ∀ x : ℝ,
      ZoomController.continuous_zoom_scale x "in" (1/10) =
        x * (2:ℝ) ^ ((1:ℝ)/10) := by
    intro x
    simp [ZoomController.continuous_zoom_scale]
  have hiter : ∀ (n : ℕ) (x : ℝ),
      (fun x => ZoomController.continuous_zoom_scale x "in" (1/10))^[n] x =
        x * ((2:ℝ) ^ ((1:ℝ)/10)) ^ n := by
    intro n
    induction n with
    | zero => intro x; simp
    | succ k ih =>
      intro x
      rw [Function.iterate_succ_apply, hstep, ih, pow_succ]
      ring
  rw [hiter]
  have hpow : ((2:ℝ) ^ ((1:ℝ)/10)) ^ (10:ℕ) = (2:ℝ) ^ (1:ℝ) := by
    rw [← Real.rpow_natCast ((2:ℝ) ^ ((1:ℝ)/10)) 10,
      ← Real.rpow_mul (by norm_num : (0:ℝ) ≤ 2)]
    norm_num
  rw [hpow]
  simp [ZoomController.continuous_zoom_scale]

/-- Placeholder for a pygame surface: the transition state machine only ever
counts and indexes frames, never inspects pixels. -/
abbrev Frame : Type := ℕ

/-- State of the refactored `TransitionManager` (src/src/transition_manager.py).
Python's `None` initial values of `transition_start_time` and
`transition_direction` are modelled as `0` and `""`; both are only read after
`start_transition` has set them. -/
structure TransitionManager where
  transitions : List (List Frame)
  transition_idx : ℤ
  is_transitioning : Bool
  current_transition_frames : List Frame
  transition_frame_index : ℤ
  transition_start_time : ℚ
  transition_fps : ℚ
  transition_direction : String
deriving DecidableEq, Repr

/-- `TransitionManager.__init__` (the loaded `transitions` sets are produced
by out-of-scope disk loading and enter as state). -/
def TransitionManager.init (transitions : List (List Frame)) :
    TransitionManager where
  transitions := transitions
  transition_idx := 0
  is_transitioning := false
  current_transition_frames := []
  transition_frame_index := 0
  transition_start_time := 0
  transition_fps := 30
  transition_direction := ""

/-- `start_transition(direction)` of the refactored manager;
`self.transitions[idx]` uses Python list indexing, so an out-of-range index is
an `IndexError` (`none`). -/
def TransitionManager.start_transition (tm : TransitionManager)
    (direction : String) (now : ℚ) : Option TransitionManager :=
  let idx := if direction = "forward" then tm.transition_idx
             else tm.transition_idx - 1
  match pyGet tm.transitions idx with
  | none => none
  | some frames =>
      some { tm with
        current_transition_frames := frames
        is_transitioning := true
        transition_frame_index := 0
        transition_start_time := now
        transition_direction := direction }

/-- `update()` of the refactored manager: frame index is a pure function of
elapsed wall-clock time; on completion the manager moves its own position
(`transition_idx`) one step in the travel direction. -/
def TransitionManager.update (tm : TransitionManager) (now : ℚ) :
    TransitionManager × Bool :=
  if tm.is_transitioning = false then (tm, false)
  else
    let elapsed := now - tm.transition_start_time
    let frame_duration := 1000 / tm.transition_fps
    let target_frame := pyTrunc (elapsed / frame_duration)
    if (tm.current_transition_frames.length : ℤ) ≤ target_frame then
      ({ tm with
          is_transitioning := false
          transition_idx := if tm.transition_direction = "forward"
            then tm.transition_idx + 1 else tm.transition_idx - 1 }, true)
    else
      ({ tm with transition_frame_index :=
          if tm.transition_direction = "backward"
          then (tm.current_transition_frames.length : ℤ) - 1 - target_frame
          else target_frame }, false)

/-- `get_current_frame()` of the refactored manager. -/
def TransitionManager.get_current_frame (tm : TransitionManager) :
    Option Frame :=
  if tm.transition_frame_index < (tm.current_transition_frames.length : ℤ)
  then pyGet tm.current_transition_frames tm.transition_frame_index
  else none

/-- `is_active()` of the refactored manager. -/
def TransitionManager.is_active (tm : TransitionManager) : Bool :=
  tm.is_transitioning

/-- State of the legacy `TransitionManager` (top-level
src/transition_manager.py): a single global frame sequence. -/
structure Legacy.TransitionManager where
  is_transitioning : Bool
  transition_frames : List Frame
  transition_frame_index : ℤ
  transition_start_time : ℚ
  transition_fps : ℚ
  transition_direction : String
  pending_image_index : Option ℤ
deriving DecidableEq, Repr

/-- `TransitionManager.__init__` of the legacy manager. -/
def Legacy.TransitionManager.init : Legacy.TransitionManager where
  is_transitioning := false
  transition_frames := []
  transition_frame_index := 0
  transition_start_time := 0
  transition_fps := 30
  transition_direction := ""
  pending_image_index := none

/-- `start_transition(direction, target_index)` of the legacy manager. -/
def Legacy.TransitionManager.start_transition (tm : Legacy.TransitionManager)
    (direction : String) (target_index : ℤ) (now : ℚ) :
    Legacy.TransitionManager :=
  { tm with
    is_transitioning := true
    transition_frame_index := 0
    transition_start_time := now
    transition_direction := direction
    pending_image_index := some target_index }

/-- `update()` of the legacy manager: `if not self.is_transitioning or
len(self.transition_frames) == 0: return False` — an active transition with
zero frames short-circuits to `False` and is never deactivated. -/
def Legacy.TransitionManager.update (tm : Legacy.TransitionManager)
    (now : ℚ) : Legacy.TransitionManager × Bool :=
  if tm.is_transitioning = false ∨ tm.transition_frames.length = 0 then
    (tm, false)
  else
    let elapsed := now - tm.transition_start_time
    let frame_duration := 1000 / tm.transition_fps
    let target_frame := pyTrunc (elapsed / frame_duration)
    if (tm.transition_frames.length : ℤ) ≤ target_frame then
      ({ tm with is_transitioning := false }, true)
    else
      ({ tm with transition_frame_index :=
          if tm.transition_direction = "backward"
          then (tm.transition_frames.length : ℤ) - 1 - target_frame
          else target_frame }, false)

/-- Legacy transition manager after starting a transition with zero loaded
frames: the state used to refute C2 as universally stated. -/
def legacyActiveEmpty : Legacy.TransitionManager :=
  Legacy.TransitionManager.init.start_transition "forward" 1 0

/-- C2 counterexample: in the legacy manager (src/transition_manager.py), a
transition that is active with an empty frame sequence does NOT complete on
the first `update()` call — update returns `completed = false` and leaves the
transition active forever (it hangs). -/
theorem legacy_empty_transition_first_update_incomplete :
    legacyActiveEmpty.is_transitioning = true ∧
      legacyActiveEmpty.transition_frames = [] ∧
      (legacyActiveEmpty.update 0).2 = false ∧
      (legacyActiveEmpty.update 0).1.is_transitioning = true := by
  refine ⟨rfl, rfl, ?_, ?_⟩ <;>
    simp [legacyActiveEmpty, Legacy.TransitionManager.update,
      Legacy.TransitionManager.start_transition, Legacy.TransitionManager.init]

/-- Python truncation agrees with the floor on nonnegative arguments. -/
theorem pyTrunc_of_nonneg (q : ℚ) (h : 0 ≤ q) : pyTrunc q = ⌊q⌋ :=
  if_pos h

/-- C2 (amended): in the refactored manager (src/src/transition_manager.py),
an active transition whose frame sequence is empty completes on the very
first `update()` call — it returns `completed = true` and deactivates —
provided only that the clock is monotone (`start_time ≤ now`) and the frame
rate is positive (it is the constant 30). -/
theorem empty_transition_completes_on_first_update (tm : TransitionManager)
    (now : ℚ) (hact : tm.is_transitioning = true)
    (hempty : tm.current_transition_frames = [])
    (hfps : 0 < tm.transition_fps)
    (hclock : tm.transition_start_time ≤ now) :
    (tm.update now).2 = true ∧ (tm.update now).1.is_transitioning = false := by
  have hq : (0:ℚ) ≤ (now - tm.transition_start_time) / (1000 / tm.transition_fps) :=
    div_nonneg (by linarith) (by positivity)
  unfold TransitionManager.update
  rw [if_neg (by simp [hact]), hempty]
  rw [if_pos (by
    simp only [List.length_nil, Nat.cast_zero]
    rw [pyTrunc_of_nonneg _ hq]
    exact Int.floor_nonneg.mpr hq)]
  exact ⟨rfl, rfl⟩

/-- Witness for C2's amended theorem on a concrete active, empty transition. -/
theorem empty_transition_completes_on_first_update_witness :
    (({ transitions := [[], [7]], transition_idx := 0, is_transitioning := true,
        current_transition_frames := [], transition_frame_index := 0,
        transition_start_time := 5, transition_fps := 30,
        transition_direction := "forward" } : TransitionManager).update 12).2
      = true :=
  (empty_transition_completes_on_first_update _ 12 rfl rfl
    (by norm_num) (by norm_num)).1

/-- Evaluation of the refactored `update()` on an active transition. -/
theorem TransitionManager.update_active (tm : TransitionManager) (now : ℚ)
    (hact : tm.is_transitioning = true) :
    tm.update now =
      if (tm.current_transition_frames.length : ℤ) ≤
          pyTrunc ((now - tm.transition_start_time) / (1000 / tm.transition_fps))
      then
        ({ tm with
            is_transitioning := false
            transition_idx := if tm.transition_direction = "forward"
              then tm.transition_idx + 1 else tm.transition_idx - 1 }, true)
      else
        ({ tm with transition_frame_index :=
            if tm.transition_direction = "backward"
            then (tm.current_transition_frames.length : ℤ) - 1 -
              pyTrunc ((now - tm.transition_start_time) / (1000 / tm.transition_fps))
            else pyTrunc ((now - tm.transition_start_time) / (1000 / tm.transition_fps)) },
          false) := by
  simp only [TransitionManager.update, hact]
  rw [if_neg (by simp : ¬(true = false))]

/-- C8: playback of the refactored transition manager is a deterministic
function of elapsed time.  With `frame_duration = 1000/30` and
`target_frame = int(elapsed / frame_duration)`: `update()` completes exactly
when `target_frame` reaches the frame count; while incomplete it shows frame
`target_frame` going forward and frame `N - 1 - target_frame` going backward
(`0` resp. `N-1` at `elapsed = 0`); and the backward frame index decreases
toward `0` as elapsed time increases. -/
theorem transition_update_deterministic (tm : TransitionManager)
    (now now' : ℚ) (hact : tm.is_transitioning = true)
    (hfps : tm.transition_fps = 30)
    (hclock : tm.transition_start_time ≤ now)
    (hmono : now ≤ now') :
    ((tm.update now).2 = true ↔
      (tm.current_transition_frames.length : ℤ) ≤
        pyTrunc ((now - tm.transition_start_time) / (1000 / 30))) ∧
    (pyTrunc ((now - tm.transition_start_time) / (1000 / 30)) <
        (tm.current_transition_frames.length : ℤ) →
      (tm.update now).2 = false ∧
      (tm.update now).1.transition_frame_index =
        (if tm.transition_direction = "backward"
         then (tm.current_transition_frames.length : ℤ) - 1 -
           pyTrunc ((now - tm.transition_start_time) / (1000 / 30))
         else pyTrunc ((now - tm.transition_start_time) / (1000 / 30)))) ∧
    (now = tm.transition_start_time →
      0 < tm.current_transition_frames.length →
      (tm.update now).1.transition_frame_index =
        (if tm.transition_direction = "backward"
         then (tm.current_transition_frames.length : ℤ) - 1 else 0)) ∧
    (tm.transition_direction = "backward" →
      pyTrunc ((now' - tm.transition_start_time) / (1000 / 30)) <
        (tm.current_transition_frames.length : ℤ) →
      (tm.update now').1.transition_frame_index ≤
        (tm.update now).1.transition_frame_index ∧
      0 ≤ (tm.update now').1.transition_frame_index) := by
  have hq : (0:ℚ) ≤ (now - tm.transition_start_time) / (1000 / 30) :=
    div_nonneg (by linarith) (by norm_num)
  have hq' : (0:ℚ) ≤ (now' - tm.transition_start_time) / (1000 / 30) :=
    div_nonneg (by linarith) (by norm_num)
  have hqle : (now - tm.transition_start_time) / (1000 / 30) ≤
      (now' - tm.transition_start_time) / (1000 / 30) := by
    gcongr
  have htle : pyTrunc ((now - tm.transition_start_time) / (1000 / 30)) ≤
      pyTrunc ((now' - tm.transition_start_time) / (1000 / 30)) := by
    rw [pyTrunc_of_nonneg _ hq, pyTrunc_of_nonneg _ hq']
    exact Int.floor_le_floor hqle
  rw [TransitionManager.update_active tm now hact,
    TransitionManager.update_active tm now' hact, hfps]
  refine ⟨?_, ?_, ?_, ?_⟩
  · by_cases hcond : (tm.current_transition_frames.length : ℤ) ≤
        pyTrunc ((now - tm.transition_start_time) / (1000 / 30))
    · rw [if_pos hcond]
      exact iff_of_true rfl hcond
    · rw [if_neg hcond]
      exact iff_of_false (by simp) hcond
  · intro hlt
    rw [if_neg (not_le.mpr hlt)]
    exact ⟨rfl, rfl⟩
  · intro h0 hN
    have hz : pyTrunc ((now - tm.transition_start_time) / (1000 / 30)) = 0 := by
      rw [h0]
      simp [pyTrunc]
    rw [if_neg (not_le.mpr (by rw [hz]; exact_mod_cast hN))]
    simp only [hz]
    split_ifs with hdir <;> simp
  · intro hdir hlt'
    have hlt : pyTrunc ((now - tm.transition_start_time) / (1000 / 30)) <
        (tm.current_transition_frames.length : ℤ) := lt_of_le_of_lt htle hlt'
    rw [if_neg (not_le.mpr hlt), if_neg (not_le.mpr hlt'), if_pos hdir,
      if_pos hdir]
    constructor
    · simp only
      omega
    · simp only
      omega

/-- Concrete 16-frame active transition for the C8 witness. -/
def tm16 : TransitionManager :=
  { transitions := [], transition_idx := 0, is_transitioning := true,
    current_transition_frames := List.range 16, transition_frame_index := 0,
    transition_start_time := 0, transition_fps := 30,
    transition_direction := "forward" }

/-- Witness for C8: with `N = 16` frames at 30 fps, `update()` at elapsed 0
shows frame 0, and at elapsed `16 * (1000/30) = 1600/3` ms it completes. -/
theorem transition_update_deterministic_witness :
    tm16.is_transitioning = true ∧ tm16.transition_fps = 30 ∧
      (tm16.update 0).1.transition_frame_index = 0 ∧
      (tm16.update (1600/3)).2 = true := by
  refine ⟨rfl, rfl, ?_, ?_⟩
  · exact ((transition_update_deterministic tm16 0 0 rfl rfl (by norm_num [tm16])
      le_rfl).2.2.1 (by norm_num [tm16]) (by simp [tm16])).trans
      (by norm_num [tm16]; decide)
  · refine (transition_update_deterministic tm16 (1600/3) (1600/3) rfl rfl
      (by norm_num [tm16]) le_rfl).1.mpr ?_
    have hv : ((1600/3 : ℚ) - tm16.transition_start_time) / (1000/30) = 16 := by
      norm_num [tm16]
    rw [hv, pyTrunc_of_nonneg _ (by norm_num), Int.le_floor]
    simp [tm16]

/-- `RectData` (src/image_manager.py): rectangle retaining rational (float)
precision. -/
structure RectData where
  x : ℚ
  y : ℚ
  width : ℚ
  height : ℚ
deriving DecidableEq, Repr

/-- `RectData.scaled(factor)`. -/
def RectData.scaled (r : RectData) (factor : ℚ) : RectData :=
  ⟨r.x * factor, r.y * factor, r.width * factor, r.height * factor⟩

/-- Per-image configuration record: the two optional target-rectangle
encodings read by `_get_rect` (`nextPixelRect` has priority, then the
normalized `nextRect`); kept as raw lists so the source's `len(...) == 4`
checks are modelled faithfully. -/
structure ImgConfig where
  nextPixelRect : Option (List ℚ)
  nextRect : Option (List ℚ)
deriving DecidableEq, Repr

/-- First half of `_get_rect`: build `rect_data` from the config.  A missing
or non-length-4 `nextPixelRect` falls through to `nextRect` (Python's
`if pixel_rect and len(pixel_rect) == 4`), and likewise for `nextRect`. -/
def config_rect_data (img_config : ImgConfig) (original_size : ℚ × ℚ) :
    Option RectData :=
  match img_config.nextPixelRect with
  | some [a, b, c, d] => some ⟨a, b, c, d⟩
  | _ =>
    match img_config.nextRect with
    | some [a, b, c, d] =>
        some ⟨original_size.1 * a, original_size.2 * b,
              original_size.1 * c, original_size.2 * d⟩
    | _ => none

/-- Second half of `_get_rect(img_config, original_size, scale_factor,
space)`: convert `rect_data` to the requested coordinate space ('surface'
scales by `scale_factor`; any other space string returns the original-space
rectangle). -/
def get_rect_config (img_config : ImgConfig) (original_size : ℚ × ℚ)
    (scale_factor : ℚ) (space : String) : Option RectData :=
  match config_rect_data img_config original_size with
  | some rd => if space = "surface" then some (rd.scaled scale_factor) else some rd
  | none => none

/-- `_calculate_max_scale(img_config, original_size, scale_factor)`:
`min(viewportW / rect.width, viewportH / rect.height)` when a rectangle
exists, else `1.0`. -/
def calculate_max_scale (viewport_dims : ℚ × ℚ) (img_config : ImgConfig)
    (original_size : ℚ × ℚ) (scale_factor : ℚ) : ℚ :=
  match get_rect_config img_config original_size scale_factor "surface" with
  | some rect =>
      min (viewport_dims.1 / rect.width) (viewport_dims.2 / rect.height)
  | none => 1

/-- The viewport-fit scale computed in `load_images`:
`min(viewportW / originalW, viewportH / originalH)`. -/
def image_fit_scale (viewport_dims : ℚ × ℚ) (original_size : ℚ × ℚ) : ℚ :=
  min (viewport_dims.1 / original_size.1) (viewport_dims.2 / original_size.2)

/-- The surface-space rectangle is the original-space rectangle scaled by the
fit factor. -/
theorem get_rect_config_surface_eq (img_config : ImgConfig)
    (original_size : ℚ × ℚ) (scale_factor : ℚ) :
    get_rect_config img_config original_size scale_factor "surface" =
      Option.map (fun rd => rd.scaled scale_factor)
        (get_rect_config img_config original_size scale_factor "original") := by
  unfold get_rect_config
  cases h : config_rect_data img_config original_size with
  | none => rfl
  | some rd =>
      show (if "surface" = "surface" then some (rd.scaled scale_factor) else some rd) =
        Option.map (fun rd => rd.scaled scale_factor)
          (if "original" = "surface" then some (rd.scaled scale_factor) else some rd)
      rw [if_pos rfl, if_neg (by decide)]
      rfl

/-- C7: `_calculate_max_scale` returns
`min(viewportW / rect.width, viewportH / rect.height)` when the image's
target rectangle exists and `1.0` otherwise; and for every loaded image —
positive viewport and image dimensions, target rectangle a nonempty
sub-region of the original image — the invariant `max_scale ≥ 1` (minScale
is the constant `1.0`) holds. -/
theorem max_scale_formula_and_invariant (viewport_dims original_size : ℚ × ℚ)
    (cfg : ImgConfig)
    (hvw : 0 < viewport_dims.1) (hvh : 0 < viewport_dims.2)
    (how : 0 < original_size.1) (hoh : 0 < original_size.2)
    (hrect : ∀ rd : RectData,
      get_rect_config cfg original_size
        (image_fit_scale viewport_dims original_size) "original" = some rd →
      0 < rd.width ∧ rd.width ≤ original_size.1 ∧
      0 < rd.height ∧ rd.height ≤ original_size.2) :
    (∀ rect : RectData,
      get_rect_config cfg original_size
        (image_fit_scale viewport_dims original_size) "surface" = some rect →
      calculate_max_scale viewport_dims cfg original_size
        (image_fit_scale viewport_dims original_size) =
        min (viewport_dims.1 / rect.width) (viewport_dims.2 / rect.height)) ∧
    (get_rect_config cfg original_size
        (image_fit_scale viewport_dims original_size) "surface" = none →
      calculate_max_scale viewport_dims cfg original_size
        (image_fit_scale viewport_dims original_size) = 1) ∧
    1 ≤ calculate_max_scale viewport_dims cfg original_size
      (image_fit_scale viewport_dims original_size) := by
  have hsf_pos : 0 < image_fit_scale viewport_dims original_size := by
    unfold image_fit_scale
    exact lt_min (div_pos hvw how) (div_pos hvh hoh)
  have hsfle1 : image_fit_scale viewport_dims original_size ≤
      viewport_dims.1 / original_size.1 := by
    unfold image_fit_scale
    exact min_le_left _ _
  have hsfle2 : image_fit_scale viewport_dims original_size ≤
      viewport_dims.2 / original_size.2 := by
    unfold image_fit_scale
    exact min_le_right _ _
  refine ⟨?_, ?_, ?_⟩
  · intro rect hr
    unfold calculate_max_scale
    rw [hr]
  · intro hr
    unfold calculate_max_scale
    rw [hr]
  · cases horig : get_rect_config cfg original_size
        (image_fit_scale viewport_dims original_size) "original" with
    | none =>
        have hsurf : get_rect_config cfg original_size
            (image_fit_scale viewport_dims original_size) "surface" = none := by
          rw [get_rect_config_surface_eq, horig]
          rfl
        unfold calculate_max_scale
        rw [hsurf]
    | some rd =>
        obtain ⟨hw0, hw1, hh0, hh1⟩ := hrect rd horig
        have hsurf : get_rect_config cfg original_size
            (image_fit_scale viewport_dims original_size) "surface" =
              some (rd.scaled (image_fit_scale viewport_dims original_size)) := by
          rw [get_rect_config_surface_eq, horig]
          rfl
        unfold calculate_max_scale
        rw [hsurf]
        simp only [RectData.scaled]
        have hwpos : 0 < rd.width * image_fit_scale viewport_dims original_size :=
          mul_pos hw0 hsf_pos
        have hhpos : 0 < rd.height * image_fit_scale viewport_dims original_size :=
          mul_pos hh0 hsf_pos
        have hw : rd.width * image_fit_scale viewport_dims original_size ≤
            viewport_dims.1 := by
          calc rd.width * image_fit_scale viewport_dims original_size ≤
              original_size.1 * image_fit_scale viewport_dims original_size :=
                mul_le_mul_of_nonneg_right hw1 hsf_pos.le
            _ ≤ original_size.1 * (viewport_dims.1 / original_size.1) :=
                mul_le_mul_of_nonneg_left hsfle1 how.le
            _ = viewport_dims.1 := by
                field_simp
        have hh : rd.height * image_fit_scale viewport_dims original_size ≤
            viewport_dims.2 := by
          calc rd.height * image_fit_scale viewport_dims original_size ≤
              original_size.2 * image_fit_scale viewport_dims original_size :=
                mul_le_mul_of_nonneg_right hh1 hsf_pos.le
            _ ≤ original_size.2 * (viewport_dims.2 / original_size.2) :=
                mul_le_mul_of_nonneg_left hsfle2 hoh.le
            _ = viewport_dims.2 := by
                field_simp
        exact le_min ((one_le_div hwpos).mpr hw) ((one_le_div hhpos).mpr hh)

/-- Concrete image config for the C7 witness: a centered normalized target
rectangle covering half of each dimension. -/
def cfgEx : ImgConfig :=
  { nextPixelRect := none, nextRect := some [1/4, 1/4, 1/2, 1/2] }

/-- Witness for C7: a 1000 by 800 image with the centered half-size rectangle
in a 1920 by 1080 viewport has max scale at least 1 (it equals 2). -/
theorem max_scale_formula_and_invariant_witness :
    1 ≤ calculate_max_scale (1920, 1080) cfgEx (1000, 800)
      (image_fit_scale (1920, 1080) (1000, 800)) :=
  (max_scale_formula_and_invariant (1920, 1080) (1000, 800) cfgEx
    (by norm_num) (by norm_num) (by norm_num) (by norm_num)
    (by
      intro rd h
      have : rd = ⟨250, 200, 500, 400⟩ := by
        simp only [get_rect_config, config_rect_data, cfgEx] at h
        rw [if_neg (by decide)] at h
        norm_num at h
        exact h.symm
      rw [this]
      norm_num)).2.2

/-- `ImageData` (src/image_manager.py): pixel buffers are opaque `Frame`s. -/
structure ImageData where
  config : ImgConfig
  original : Frame
  surface : Frame
  scale : ℚ
  bg : Frame
  max_scale : ℚ
deriving DecidableEq, Repr

/-- Navigation state of `ImageManager`: the loaded image list and
`current_index` (a Python int, hence `ℤ`). -/
structure ImageManager where
  images : List ImageData
  current_index : ℤ
deriving DecidableEq, Repr

/-- `get_current_image()`: Python indexing `self.images[self.current_index]`. -/
def ImageManager.get_current_image (im : ImageManager) : Option ImageData :=
  pyGet im.images im.current_index

/-- `set_image(index)`: only an in-range index is stored. -/
def ImageManager.set_image (im : ImageManager) (index : ℤ) : ImageManager :=
  if 0 ≤ index ∧ index < (im.images.length : ℤ) then
    { im with current_index := index }
  else im

/-- `can_go_next()`. -/
def ImageManager.can_go_next (im : ImageManager) : Bool :=
  im.current_index < (im.images.length : ℤ) - 1

/-- `can_go_previous()`. -/
def ImageManager.can_go_previous (im : ImageManager) : Bool :=
  0 < im.current_index

/-- `try_next()`: returns the new state and the success flag. -/
def ImageManager.try_next (im : ImageManager) : ImageManager × Bool :=
  if im.can_go_next then ({ im with current_index := im.current_index + 1 }, true)
  else (im, false)

/-- `try_previous()`. -/
def ImageManager.try_previous (im : ImageManager) : ImageManager × Bool :=
  if im.can_go_previous then
    ({ im with current_index := im.current_index - 1 }, true)
  else (im, false)

/-- `next_image()`. -/
def ImageManager.next_image (im : ImageManager) : ImageManager :=
  if im.can_go_next then { im with current_index := im.current_index + 1 }
  else im

/-- `previous_image()`. -/
def ImageManager.previous_image (im : ImageManager) : ImageManager :=
  if im.can_go_previous then { im with current_index := im.current_index - 1 }
  else im

/-- C9: every public `ImageManager` navigation operation preserves
`0 ≤ current_index < len(images)` (on a nonempty image list): `set_image`
leaves the state unchanged for every out-of-range index, and
`try_next`/`try_previous`/`next_image`/`previous_image` move the index (by
exactly one) only when `can_go_next`/`can_go_previous` hold. -/
theorem image_manager_navigation_invariant (im : ImageManager) (i : ℤ)
    (h0 : 0 ≤ im.current_index)
    (h1 : im.current_index < (im.images.length : ℤ)) :
    (¬(0 ≤ i ∧ i < (im.images.length : ℤ)) → im.set_image i = im) ∧
    (0 ≤ (im.set_image i).current_index ∧
      (im.set_image i).current_index < ((im.set_image i).images.length : ℤ)) ∧
    ((im.try_next).2 = im.can_go_next) ∧
    ((im.try_next).1.current_index =
      if im.can_go_next then im.current_index + 1 else im.current_index) ∧
    (0 ≤ (im.try_next).1.current_index ∧
      (im.try_next).1.current_index < (((im.try_next).1.images.length : ℤ))) ∧
    ((im.try_previous).2 = im.can_go_previous) ∧
    ((im.try_previous).1.current_index =
      if im.can_go_previous then im.current_index - 1 else im.current_index) ∧
    (0 ≤ (im.try_previous).1.current_index ∧
      (im.try_previous).1.current_index <
        (((im.try_previous).1.images.length : ℤ))) ∧
    ((im.next_image).current_index =
      if im.can_go_next then im.current_index + 1 else im.current_index) ∧
    (0 ≤ (im.next_image).current_index ∧
      (im.next_image).current_index < (((im.next_image).images.length : ℤ))) ∧
    ((im.previous_image).current_index =
      if im.can_go_previous then im.current_index - 1 else im.current_index) ∧
    (0 ≤ (im.previous_image).current_index ∧
      (im.previous_image).current_index <
        (((im.previous_image).images.length : ℤ))) := by
  have hnext : im.can_go_next = true ↔
      im.current_index < (im.images.length : ℤ) - 1 := by
    simp [ImageManager.can_go_next]
  have hprev : im.can_go_previous = true ↔ 0 < im.current_index := by
    simp [ImageManager.can_go_previous]
  refine ⟨?_, ?_, ?_, ?_, ?_, ?_, ?_, ?_, ?_, ?_, ?_, ?_⟩
  · intro h
    unfold ImageManager.set_image
    rw [if_neg h]
  · unfold ImageManager.set_image
    split_ifs with h
    · exact ⟨h.1, h.2⟩
    · exact ⟨h0, h1⟩
  · unfold ImageManager.try_next
    split_ifs with h
    · exact h.symm
    · simpa using (Bool.not_eq_true _).mp h
  · unfold ImageManager.try_next
    split_ifs with h <;> rfl
  · unfold ImageManager.try_next
    split_ifs with h
    · have := hnext.mp h
      constructor <;> simp <;> omega
    · exact ⟨h0, h1⟩
  · unfold ImageManager.try_previous
    split_ifs with h
    · exact h.symm
    · simpa using (Bool.not_eq_true _).mp h
  · unfold ImageManager.try_previous
    split_ifs with h <;> rfl
  · unfold ImageManager.try_previous
    split_ifs with h
    · have := hprev.mp h
      constructor <;> simp <;> omega
    · exact ⟨h0, h1⟩
  · unfold ImageManager.next_image
    split_ifs with h <;> rfl
  · unfold ImageManager.next_image
    split_ifs with h
    · have := hnext.mp h
      constructor <;> simp <;> omega
    · exact ⟨h0, h1⟩
  · unfold ImageManager.previous_image
    split_ifs with h <;> rfl
  · unfold ImageManager.previous_image
    split_ifs with h
    · have := hprev.mp h
      constructor <;> simp <;> omega
    · exact ⟨h0, h1⟩

/-- Concrete two-image manager for the C9 witness. -/
def imEx : ImageManager :=
  { images := [⟨⟨none, none⟩, 0, 0, 1, 0, 2⟩, ⟨⟨none, none⟩, 1, 1, 1, 1, 1⟩],
    current_index := 0 }

/-- Witness for C9 on the two-image manager at the out-of-range index 5. -/
theorem image_manager_navigation_invariant_witness :
    imEx.set_image 5 = imEx ∧
      (imEx.try_next).1.current_index =
        (if imEx.can_go_next then imEx.current_index + 1
         else imEx.current_index) := by
  have h := image_manager_navigation_invariant imEx 5 (by norm_num [imEx])
    (by norm_num [imEx])
  exact ⟨h.1 (by norm_num [imEx]), h.2.2.2.1⟩

/-- Zoom-related actions produced by `_handle_input` each frame
(`InputHandler` emits `zoom_step`/`zoom_continuous`; `toggle_debug` and other
actions do not touch the zoom controller and are modelled by `other`).  As in
`ZoomController.zoom_continuous`, the float power `rate ** dt` travels as a
precomputed rational factor. -/
inductive ViewerAction where
  | zoomStep (direction : String)
  | zoomContinuous (direction : String) (zoom_factor : ℚ)
  | other
deriving DecidableEq, Repr

/-- Dispatch of one action in `ZoomViewer._handle_input`. -/
def applyAction (z : ZoomController) (a : ViewerAction) (now : ℚ) : ZoomController :=
  match a with
  | .zoomStep dir => z.zoom_step dir now
  | .zoomContinuous dir factor => z.zoom_continuous dir factor
  | .other => z

/-- One frame of input for the viewer loop: the action list of
`_handle_input` plus the two clock readings of the frame (`t_act` during
input handling, `t_upd` during `_update_state`; the clock is monotone but the
proofs below do not even need that). -/
structure TickInput where
  actions : List ViewerAction
  t_act : ℚ
  t_upd : ℚ
deriving DecidableEq, Repr

/-- State owned by `ZoomViewer` (src/src/viewer.py): the three coordinated
components. -/
structure Viewer where
  zoom : ZoomController
  tman : TransitionManager
  iman : ImageManager
deriving DecidableEq, Repr

/-- `_handle_boundary_transition(boundary_direction)`: start a transition if
the catalog can move in that direction, else clamp the zoom scale. -/
def Viewer.handle_boundary (v : Viewer) (dir : String) (now : ℚ) :
    Option Viewer :=
  let next_image_exists :=
    if dir = "forward" then v.iman.can_go_next else v.iman.can_go_previous
  if next_image_exists then
    match v.tman.start_transition dir now with
    | none => none
    | some tm' => some { v with tman := tm' }
  else
    some { v with zoom := v.zoom.clamp_scale }

/-- Second half of `_update_state()`: the transition-manager update and, on
completion, the catalog/zoom resynchronisation (`set_image` to the
transition's position, `set_max_scale` from the new current image, then
`reset_to_max`/`reset_to_min` by travel direction).  `none` models an
uncaught `IndexError` from `get_current_image`. -/
def Viewer.finish_transition (v2 : Viewer) (now : ℚ) : Option Viewer :=
  let tres := v2.tman.update now
  let v3 : Viewer := { v2 with tman := tres.1 }
  if tres.2 then
    let im' := v3.iman.set_image tres.1.transition_idx
    match pyGet im'.images im'.current_index with
    | none => none
    | some img =>
      let z2 := v3.zoom.set_max_scale img.max_scale
      let z3 := if tres.1.transition_direction = "backward"
                then z2.reset_to_max else z2.reset_to_min
      some { v3 with iman := im', zoom := z3 }
  else
    some v3

/-- `_update_state()`: zoom update, boundary handling, then the transition
half above. -/
def Viewer.update_state (v : Viewer) (now : ℚ) : Option Viewer :=
  let zres := v.zoom.update now
  let v1 : Viewer := { v with zoom := zres.1 }
  let v2opt : Option Viewer :=
    match zres.2 with
    | some dir => v1.handle_boundary dir now
    | none => some v1
  match v2opt with
  | none => none
  | some v2 => v2.finish_transition now

/-- One iteration of `ZoomViewer.run`'s loop: process the frame's input
actions, then `_update_state` (rendering is out of scope).
`InputHandler.process_events` receives `transition_manager.is_active()` and
produces zoom actions only when it is false (src/input_handler.py:24,
`elif not transition_active`), so during a transition the frame's input is a
no-op on the zoom controller. -/
def Viewer.tick (v : Viewer) (inp : TickInput) : Option Viewer :=
  let z1 := if v.tman.is_active = true then v.zoom
            else inp.actions.foldl (fun z a => applyAction z a inp.t_act) v.zoom
  Viewer.update_state { v with zoom := z1 } inp.t_upd

/-- The viewer loop over a finite input trace. -/
def Viewer.run (v : Viewer) : List TickInput → Option Viewer
  | [] => some v
  | inp :: rest =>
    match v.tick inp with
    | none => none
    | some v' => v'.run rest

/-- Two-image catalog whose image 0 has no target rectangle
(`max_scale = 1 = min_scale`) but does have a successor and a one-frame
transition. -/
def viewerEx : Viewer :=
  { zoom := ZoomController.init
    tman := TransitionManager.init [[0], []]
    iman := { images := [⟨⟨none, none⟩, 0, 0, 1, 0, 1⟩,
                         ⟨⟨none, none⟩, 1, 1, 1, 1, 1⟩],
              current_index := 0 } }

/-- Frame 1 of the counterexample run: the user taps zoom-in at 1000 ms. -/
def tickOneEx : TickInput := ⟨[ViewerAction.zoomStep "in"], 1000, 1000⟩

/-- Frame 2 of the counterexample run: 16 ms later, no new input. -/
def tickTwoEx : TickInput := ⟨[], 1016, 1016⟩

/-- State after frame 1: animation armed toward 1.3, scale still 1. -/
def viewerMidEx : Viewer :=
  { zoom := { scale := 1, min_scale := 1, current_max_scale := 1,
              animation_duration := 300, target_scale := 13/10,
              start_scale := 1, animation_start_time := 1000,
              is_animating := true, step_zoom_factor := 13/10,
              continuous_zoom_rate := 2, continuous_zoom_active := false }
    tman := TransitionManager.init [[0], []]
    iman := viewerEx.iman }

/-- State after frame 2: the interpolated scale 127/125 crossed the
`max = min` boundary, the forward transition started, and the scale stays at
127/125 > 1 while the catalog position is still image 0. -/
def viewerFinalEx : Viewer :=
  { zoom := { scale := 127/125, min_scale := 1, current_max_scale := 1,
              animation_duration := 300, target_scale := 13/10,
              start_scale := 1, animation_start_time := 1000,
              is_animating := false, step_zoom_factor := 13/10,
              continuous_zoom_rate := 2, continuous_zoom_active := false }
    tman := { transitions := [[0], []], transition_idx := 0,
              is_transitioning := true, current_transition_frames := [0],
              transition_frame_index := 0, transition_start_time := 1016,
              transition_fps := 30, transition_direction := "forward" }
    iman := viewerEx.iman }

/-- C3 counterexample: with a successor image present, zoom-in on an image
without a target rectangle is neither a no-op nor immediately clamped — after
two frames the loop reaches an observable state whose current image (index 0)
still has `current_max_scale = min_scale` while `scale = 127/125 > min_scale`
(the transition is playing and the scale stays above `min_scale` until it
completes). -/
theorem no_rect_zoom_in_exceeds_min_scale_counterexample :
    viewerEx.zoom.current_max_scale = viewerEx.zoom.min_scale ∧
    viewerEx.run [tickOneEx, tickTwoEx] = some viewerFinalEx ∧
    viewerFinalEx.zoom.min_scale < viewerFinalEx.zoom.scale ∧
    viewerFinalEx.iman.current_index = 0 ∧
    viewerFinalEx.zoom.current_max_scale = viewerFinalEx.zoom.min_scale := by
  have h1 : viewerEx.tick tickOneEx = some viewerMidEx := by
    norm_num [Viewer.tick, Viewer.update_state, Viewer.handle_boundary,
      applyAction, ZoomController.zoom_step, ZoomController.start_zoom_animation,
      ZoomController.update, ZoomController.update_step_animation,
      ZoomController.check_boundaries, TransitionManager.update,
      TransitionManager.is_active, Viewer.finish_transition,
      viewerEx, viewerMidEx, tickOneEx, ZoomController.init,
      TransitionManager.init, min_def]
  have h2 : viewerMidEx.tick tickTwoEx = some viewerFinalEx := by
    norm_num [Viewer.tick, Viewer.update_state, Viewer.handle_boundary,
      applyAction, ZoomController.update, ZoomController.update_step_animation,
      ZoomController.check_boundaries, TransitionManager.update,
      TransitionManager.start_transition, ImageManager.can_go_next,
      TransitionManager.is_active, Viewer.finish_transition,
      pyGet, pyTrunc, List.get?, viewerMidEx, viewerFinalEx, tickTwoEx,
      viewerEx, TransitionManager.init, min_def]
  refine ⟨rfl, ?_, by norm_num [viewerFinalEx], rfl, rfl⟩
  simp only [Viewer.run, h1, h2]

/-- Input processing never touches the zoom bounds: min and max scale are
preserved, the continuous flag is only ever raised, and the scale is
untouched unless a continuous-zoom action ran (which raises the flag). -/
theorem applyAction_spec (z : ZoomController) (a : ViewerAction) (now : ℚ) :
    (applyAction z a now).min_scale = z.min_scale ∧
    (applyAction z a now).current_max_scale = z.current_max_scale ∧
    (z.continuous_zoom_active = true →
      (applyAction z a now).continuous_zoom_active = true) ∧
    ((applyAction z a now).continuous_zoom_active = false →
      (applyAction z a now).scale = z.scale ∧
        z.continuous_zoom_active = false) := by
  cases a with
  | zoomStep dir =>
      simp only [applyAction, ZoomController.zoom_step,
        ZoomController.start_zoom_animation]
      split_ifs <;> simp
  | zoomContinuous dir factor =>
      simp only [applyAction, ZoomController.zoom_continuous]
      split_ifs <;> simp
  | other => exact ⟨rfl, rfl, fun h => h, fun h => ⟨rfl, h⟩⟩

/-- `foldl` version of `applyAction_spec` over a whole frame's action list. -/
theorem foldl_actions_spec (now : ℚ) (actions : List ViewerAction)
    (z : ZoomController) :
    (actions.foldl (fun z a => applyAction z a now) z).min_scale = z.min_scale ∧
    (actions.foldl (fun z a => applyAction z a now) z).current_max_scale =
      z.current_max_scale ∧
    (z.continuous_zoom_active = true →
      (actions.foldl (fun z a => applyAction z a now) z).continuous_zoom_active
        = true) ∧
    ((actions.foldl (fun z a => applyAction z a now) z).continuous_zoom_active
        = false →
      (actions.foldl (fun z a => applyAction z a now) z).scale = z.scale) := by
  induction actions generalizing z with
  | nil => exact ⟨rfl, rfl, fun h => h, fun _ => rfl⟩
  | cons a rest ih =>
      simp only [List.foldl_cons]
      obtain ⟨m1, m2, m3, m4⟩ := applyAction_spec z a now
      obtain ⟨i1, i2, i3, i4⟩ := ih (applyAction z a now)
      refine ⟨i1.trans m1, i2.trans m2, fun h => i3 (m3 h), fun h => ?_⟩
      have hz' : (applyAction z a now).continuous_zoom_active = false := by
        cases hcv : (applyAction z a now).continuous_zoom_active
        · rfl
        · rw [i3 hcv] at h
          exact absurd h (by simp)
      obtain ⟨hs, -⟩ := m4 hz'
      rw [i4 h, hs]

/-- A `None` boundary report means the scale is at or below the max bound. -/
theorem check_boundaries_none (z : ZoomController)
    (h : z.check_boundaries = none) : z.scale ≤ z.current_max_scale := by
  by_cases h1 : z.scale > z.current_max_scale
  · exact absurd h (by simp [ZoomController.check_boundaries, h1])
  · exact not_lt.mp h1

/-- `clamp_scale` keeps the bounds and forces the scale to at most
`min_scale` whenever the two bounds agree. -/
theorem clamp_scale_spec (z : ZoomController) :
    z.clamp_scale.min_scale = z.min_scale ∧
    z.clamp_scale.current_max_scale = z.current_max_scale ∧
    (z.current_max_scale = z.min_scale →
      z.clamp_scale.scale ≤ z.min_scale) := by
  unfold ZoomController.clamp_scale
  split_ifs with h1 h2
  · exact ⟨rfl, rfl, fun h => le_of_eq h⟩
  · exact ⟨rfl, rfl, fun _ => le_refl _⟩
  · exact ⟨rfl, rfl, fun h => (not_lt.mp h1).trans (le_of_eq h)⟩

/-- `update()` preserves the zoom bounds, and a frame that reports no
boundary event leaves the scale at or below the max bound unless nothing
mutated the scale at all this frame. -/
theorem ZoomController.update_none_bound (z : ZoomController) (now : ℚ) :
    (z.update now).1.min_scale = z.min_scale ∧
    (z.update now).1.current_max_scale = z.current_max_scale ∧
    ((z.update now).2 = none →
      (z.update now).1.scale ≤ z.current_max_scale ∨
      ((z.update now).1.scale = z.scale ∧
        z.continuous_zoom_active = false)) := by
  by_cases ha : z.is_animating = true
  · have hupd : z.update now = z.update_step_animation now := by
      simp [ZoomController.update, ha]
    rw [hupd]
    obtain ⟨-, -, -, -, h5, h6⟩ := z.update_step_animation_fields now
    obtain ⟨hb, -⟩ := z.update_step_animation_boundary now ha
    refine ⟨h5, h6, fun hn => Or.inl ?_⟩
    rw [hb] at hn
    have hle := check_boundaries_none _ hn
    rwa [h6] at hle
  · by_cases hc : z.continuous_zoom_active = true
    · have hupd : z.update now =
          ({ z with continuous_zoom_active := false }, z.check_boundaries) := by
        simp [ZoomController.update, ha, hc]
      rw [hupd]
      exact ⟨rfl, rfl, fun hn => Or.inl (check_boundaries_none z hn)⟩
    · have hupd : z.update now = (z, none) := by
        simp [ZoomController.update, ha, hc]
      rw [hupd]
      exact ⟨rfl, rfl, fun _ => Or.inr ⟨rfl, by simpa using hc⟩⟩


/-- Python indexing at a nonnegative index reads from the front. -/
theorem pyGet_of_nonneg {α : Type} (l : List α) (i : ℤ) (h : 0 ≤ i) :
    pyGet l i = l.get? i.toNat :=
  if_pos h

/-- `set_image` stores any in-range index. -/
theorem ImageManager.set_image_of_range (im : ImageManager) (i : ℤ)
    (h1 : 0 ≤ i) (h2 : i < (im.images.length : ℤ)) :
    im.set_image i = { im with current_index := i } := by
  unfold ImageManager.set_image
  rw [if_pos ⟨h1, h2⟩]

/-- `update()` of the refactored transition manager is the identity (with
result `False`) when no transition is active. -/
theorem TransitionManager.update_not_active (tm : TransitionManager) (now : ℚ)
    (h : tm.is_transitioning = false) : tm.update now = (tm, false) := by
  unfold TransitionManager.update
  rw [if_pos h]

/-- A successful `start_transition` keeps the position, activates the
manager, and records the direction. -/
theorem TransitionManager.start_transition_spec (tm : TransitionManager)
    (dir : String) (now : ℚ) (tm' : TransitionManager)
    (h : tm.start_transition dir now = some tm') :
    tm'.transition_idx = tm.transition_idx ∧
    tm'.is_transitioning = true ∧
    tm'.transition_direction = dir := by
  simp only [TransitionManager.start_transition] at h
  cases hg : pyGet tm.transitions
      (if dir = "forward" then tm.transition_idx else tm.transition_idx - 1) with
  | none => rw [hg] at h; exact absurd h (by simp)
  | some frames =>
      rw [hg] at h
      injection h with h'
      rw [← h']
      exact ⟨rfl, rfl, rfl⟩

/-- The only boundary events `_check_boundaries` produces, with the scale
fact each one certifies. -/
theorem check_boundaries_some (z : ZoomController) (dir : String)
    (h : z.check_boundaries = some dir) :
    (dir = "forward" ∧ z.current_max_scale < z.scale) ∨
    (dir = "backward" ∧ z.scale < z.min_scale) := by
  unfold ZoomController.check_boundaries at h
  split_ifs at h with h1 h2
  · exact Or.inl ⟨(Option.some_inj.mp h).symm, h1⟩
  · exact Or.inr ⟨(Option.some_inj.mp h).symm, h2⟩

/-- The boundary events `update()` produces, with the post-update scale fact
each one certifies. -/
theorem ZoomController.update_some_spec (z : ZoomController) (t : ℚ)
    (dir : String) (h : (z.update t).2 = some dir) :
    (dir = "forward" ∧ (z.update t).1.current_max_scale < (z.update t).1.scale) ∨
    (dir = "backward" ∧ (z.update t).1.scale < (z.update t).1.min_scale) := by
  by_cases ha : z.is_animating = true
  · have hupd : z.update t = z.update_step_animation t := by
      simp [ZoomController.update, ha]
    rw [hupd] at h ⊢
    obtain ⟨hb, -⟩ := z.update_step_animation_boundary t ha
    rw [hb] at h
    exact check_boundaries_some _ dir h
  · by_cases hc : z.continuous_zoom_active = true
    · have hupd : z.update t =
          ({ z with continuous_zoom_active := false }, z.check_boundaries) := by
        simp [ZoomController.update, ha, hc]
      rw [hupd] at h ⊢
      rcases check_boundaries_some z dir h with ⟨hd, hlt⟩ | ⟨hd, hlt⟩
      · exact Or.inl ⟨hd, hlt⟩
      · exact Or.inr ⟨hd, hlt⟩
    · have hupd : z.update t = (z, none) := by
        simp [ZoomController.update, ha, hc]
      rw [hupd] at h
      exact absurd h (by simp)

/-- Invariant of a viewer whose catalog's LAST image is the one without a
target rectangle: `min_scale` is the constant `m`, catalog position is in
range, the transition manager's position mirrors the catalog's (it moves only
on completion), an active transition travels to an in-range neighbor, and
whenever the last image is current its `current_max_scale` equals `m` and the
scale is within bounds. -/
abbrev LastImageInv (imgs : List ImageData) (m : ℚ) (v : Viewer) : Prop :=
  v.iman.images = imgs ∧
  v.zoom.min_scale = m ∧
  (0 ≤ v.iman.current_index ∧ v.iman.current_index < (imgs.length : ℤ)) ∧
  v.tman.transition_idx = v.iman.current_index ∧
  (v.tman.is_transitioning = true →
    (v.tman.transition_direction = "forward" →
      v.iman.current_index + 1 < (imgs.length : ℤ)) ∧
    (v.tman.transition_direction ≠ "forward" → 0 < v.iman.current_index)) ∧
  (v.iman.current_index = (imgs.length : ℤ) - 1 →
    v.zoom.current_max_scale = m ∧ v.zoom.scale ≤ m)

/-- The transition half of `_update_state` preserves `LastImageInv`: a
completed transition lands on an in-range neighbor; arriving forward on the
last image sets its `max_scale` (equal to `min_scale`) and resets the scale
to `min_scale`; arriving anywhere else leaves the last image non-current. -/
theorem lastImage_finish (imgs : List ImageData) (m : ℚ)
    (hlast : ∀ img, imgs.get? (imgs.length - 1) = some img → img.max_scale = m)
    (v2 : Viewer) (t : ℚ) (v₁ : Viewer)
    (h : LastImageInv imgs m v2)
    (hfin : v2.finish_transition t = some v₁) :
    LastImageInv imgs m v₁ := by
  obtain ⟨e1, e2, ⟨e3a, e3b⟩, e4, e5, e6⟩ := h
  by_cases htr : v2.tman.is_transitioning = true
  case neg =>
    have htrf : v2.tman.is_transitioning = false := by
      revert htr
      cases v2.tman.is_transitioning <;> simp
    have hval : v2.finish_transition t = some v2 := by
      simp [Viewer.finish_transition,
        TransitionManager.update_not_active v2.tman t htrf]
    rw [hval] at hfin
    injection hfin with h'
    rw [← h']
    exact ⟨e1, e2, ⟨e3a, e3b⟩, e4, e5, e6⟩
  case pos =>
    set tf : ℤ := pyTrunc ((t - v2.tman.transition_start_time) /
      (1000 / v2.tman.transition_fps)) with htf
    by_cases hcomp : (v2.tman.current_transition_frames.length : ℤ) ≤ tf
    case neg =>
      have hval : v2.finish_transition t = some { v2 with tman :=
          { v2.tman with transition_frame_index :=
              if v2.tman.transition_direction = "backward"
              then (v2.tman.current_transition_frames.length : ℤ) - 1 - tf
              else tf } } := by
        simp [Viewer.finish_transition,
          TransitionManager.update_active v2.tman t htr, ← htf, hcomp]
      rw [hval] at hfin
      injection hfin with h'
      rw [← h']
      exact ⟨e1, e2, ⟨e3a, e3b⟩, e4, fun _ => e5 htr, e6⟩
    case pos =>
      obtain ⟨hfor, hback⟩ := e5 htr
      by_cases hdirF : v2.tman.transition_direction = "forward"
      · -- forward completion: land on current + 1
        have hi1 : (0:ℤ) ≤ v2.tman.transition_idx + 1 := by
          rw [e4]; omega
        have hi2 : v2.tman.transition_idx + 1 < (imgs.length : ℤ) := by
          rw [e4]; exact hfor hdirF
        have hset : v2.iman.set_image (v2.tman.transition_idx + 1) =
            { v2.iman with current_index := v2.tman.transition_idx + 1 } := by
          apply ImageManager.set_image_of_range
          · exact hi1
          · rw [e1]; exact hi2
        cases hg : pyGet v2.iman.images (v2.tman.transition_idx + 1) with
        | none =>
            have hval : v2.finish_transition t = none := by
              simp [Viewer.finish_transition,
                TransitionManager.update_active v2.tman t htr, ← htf, hcomp,
                hdirF, hset, hg]
            rw [hval] at hfin
            exact absurd hfin (by simp)
        | some img =>
            have hval : v2.finish_transition t = some
                { zoom := (v2.zoom.set_max_scale img.max_scale).reset_to_min,
                  tman := { v2.tman with
                            is_transitioning := false,
                            transition_idx := v2.tman.transition_idx + 1 },
                  iman := { v2.iman with
                            current_index := v2.tman.transition_idx + 1 } } := by
              simp [Viewer.finish_transition,
                TransitionManager.update_active v2.tman t htr, ← htf, hcomp,
                hdirF, hset, hg,
                show ("forward" : String) ≠ "backward" from by decide]
            rw [hval] at hfin
            injection hfin with h'
            rw [← h']
            refine ⟨e1, e2, ⟨hi1, hi2⟩, rfl,
              fun hcon => absurd hcon (by simp), ?_⟩
            intro hcur
            have hcur' : v2.tman.transition_idx + 1 = (imgs.length : ℤ) - 1 :=
              hcur
            have himg : img.max_scale = m := by
              rw [e1, pyGet_of_nonneg _ _ hi1] at hg
              have htn : (v2.tman.transition_idx + 1).toNat =
                  imgs.length - 1 := by
                omega
              rw [htn] at hg
              exact hlast img hg
            exact ⟨himg, le_of_eq e2⟩
      · -- non-forward completion: land on current - 1, never the last image
        have hb := hback hdirF
        have hi1 : (0:ℤ) ≤ v2.tman.transition_idx - 1 := by
          rw [e4]; omega
        have hi2 : v2.tman.transition_idx - 1 < (imgs.length : ℤ) := by
          rw [e4]; omega
        have hset : v2.iman.set_image (v2.tman.transition_idx - 1) =
            { v2.iman with current_index := v2.tman.transition_idx - 1 } := by
          apply ImageManager.set_image_of_range
          · exact hi1
          · rw [e1]; exact hi2
        cases hg : pyGet v2.iman.images (v2.tman.transition_idx - 1) with
        | none =>
            have hval : v2.finish_transition t = none := by
              simp [Viewer.finish_transition,
                TransitionManager.update_active v2.tman t htr, ← htf, hcomp,
                hdirF, hset, hg]
            rw [hval] at hfin
            exact absurd hfin (by simp)
        | some img =>
            have hval : v2.finish_transition t = some
                { zoom := if v2.tman.transition_direction = "backward"
                          then (v2.zoom.set_max_scale img.max_scale).reset_to_max
                          else (v2.zoom.set_max_scale img.max_scale).reset_to_min,
                  tman := { v2.tman with
                            is_transitioning := false,
                            transition_idx := v2.tman.transition_idx - 1 },
                  iman := { v2.iman with
                            current_index := v2.tman.transition_idx - 1 } } := by
              simp [Viewer.finish_transition,
                TransitionManager.update_active v2.tman t htr, ← htf, hcomp,
                hdirF, hset, hg]
            rw [hval] at hfin
            injection hfin with h'
            rw [← h']
            refine ⟨e1, ?_, ⟨hi1, hi2⟩, rfl,
              fun hcon => absurd hcon (by simp), ?_⟩
            · show (if v2.tman.transition_direction = "backward"
                  then (v2.zoom.set_max_scale img.max_scale).reset_to_max
                  else (v2.zoom.set_max_scale img.max_scale).reset_to_min).min_scale
                  = m
              split_ifs <;> exact e2
            · intro hcur
              have hcur' : v2.tman.transition_idx - 1 = (imgs.length : ℤ) - 1 :=
                hcur
              rw [e4] at hcur'
              omega

/-- One whole `_update_state` call preserves `LastImageInv`, provided the
zoom state entering it kept the bounds of the frame's starting state and only
changed the scale if the continuous flag is up (what input processing
guarantees). -/
theorem lastImage_update_state (imgs : List ImageData) (m : ℚ)
    (hlast : ∀ img, imgs.get? (imgs.length - 1) = some img → img.max_scale = m)
    (v : Viewer) (z1 : ZoomController) (t : ℚ) (v₁ : Viewer)
    (h : LastImageInv imgs m v)
    (hmin : z1.min_scale = v.zoom.min_scale)
    (hmax : z1.current_max_scale = v.zoom.current_max_scale)
    (hsc : z1.continuous_zoom_active = false → z1.scale = v.zoom.scale)
    (hupd : Viewer.update_state { v with zoom := z1 } t = some v₁) :
    LastImageInv imgs m v₁ := by
  obtain ⟨e1, e2, ⟨e3a, e3b⟩, e4, e5, e6⟩ := h
  obtain ⟨u1, u2, u3⟩ := z1.update_none_bound t
  cases hbd : (z1.update t).2 with
  | none =>
      have hval : Viewer.update_state { v with zoom := z1 } t =
          ({ v with zoom := (z1.update t).1 } : Viewer).finish_transition t := by
        simp [Viewer.update_state, hbd]
      rw [hval] at hupd
      refine lastImage_finish imgs m hlast
        ({ v with zoom := (z1.update t).1 } : Viewer) t v₁
        ⟨e1, ?_, ⟨e3a, e3b⟩, e4, e5, ?_⟩ hupd
      · show (z1.update t).1.min_scale = m
        rw [u1, hmin]
        exact e2
      · intro hcur
        have hcur' : v.iman.current_index = (imgs.length : ℤ) - 1 := hcur
        obtain ⟨hm6, hs6⟩ := e6 hcur'
        constructor
        · show (z1.update t).1.current_max_scale = m
          rw [u2, hmax]
          exact hm6
        · show (z1.update t).1.scale ≤ m
          rcases u3 hbd with hle | ⟨heq, hflag⟩
          · calc (z1.update t).1.scale ≤ z1.current_max_scale := hle
              _ = v.zoom.current_max_scale := hmax
              _ = m := hm6
          · rw [heq, hsc hflag]
            exact hs6
  | some dir =>
      have hds := z1.update_some_spec t dir hbd
      by_cases hne : (if dir = "forward" then v.iman.can_go_next
          else v.iman.can_go_previous) = true
      · cases hst : v.tman.start_transition dir t with
        | none =>
            have hval : Viewer.update_state { v with zoom := z1 } t = none := by
              simp [Viewer.update_state, hbd, Viewer.handle_boundary, hne, hst]
            rw [hval] at hupd
            exact absurd hupd (by simp)
        | some tm' =>
            obtain ⟨hs1, hs2, hs3⟩ := v.tman.start_transition_spec dir t tm' hst
            have hval : Viewer.update_state { v with zoom := z1 } t =
                ({ zoom := (z1.update t).1, tman := tm',
                   iman := v.iman } : Viewer).finish_transition t := by
              simp [Viewer.update_state, hbd, Viewer.handle_boundary, hne, hst]
            rw [hval] at hupd
            refine lastImage_finish imgs m hlast
              ({ zoom := (z1.update t).1, tman := tm',
                 iman := v.iman } : Viewer) t v₁
              ⟨e1, ?_, ⟨e3a, e3b⟩, ?_, ?_, ?_⟩ hupd
            · show (z1.update t).1.min_scale = m
              rw [u1, hmin]
              exact e2
            · show tm'.transition_idx = v.iman.current_index
              rw [hs1]
              exact e4
            · intro _
              constructor
              · intro hdirF
                rw [hs3] at hdirF
                rw [if_pos hdirF] at hne
                have hlt : v.iman.current_index <
                    (v.iman.images.length : ℤ) - 1 := by
                  simpa [ImageManager.can_go_next] using hne
                rw [e1] at hlt
                show v.iman.current_index + 1 < (imgs.length : ℤ)
                omega
              · intro hdirNF
                rw [hs3] at hdirNF
                rw [if_neg hdirNF] at hne
                show 0 < v.iman.current_index
                simpa [ImageManager.can_go_previous] using hne
            · intro hcur
              have hcur' : v.iman.current_index = (imgs.length : ℤ) - 1 := hcur
              obtain ⟨hm6, hs6⟩ := e6 hcur'
              constructor
              · show (z1.update t).1.current_max_scale = m
                rw [u2, hmax]
                exact hm6
              · show (z1.update t).1.scale ≤ m
                rcases hds with ⟨hdf, -⟩ | ⟨-, hlt⟩
                · rw [if_pos hdf] at hne
                  have hlt : v.iman.current_index <
                      (v.iman.images.length : ℤ) - 1 := by
                    simpa [ImageManager.can_go_next] using hne
                  rw [e1] at hlt
                  omega
                · have hm : (z1.update t).1.min_scale = m := by
                    rw [u1, hmin]
                    exact e2
                  exact le_of_lt (by rwa [hm] at hlt)
      · obtain ⟨c1, c2, c3⟩ := clamp_scale_spec (z1.update t).1
        have hval : Viewer.update_state { v with zoom := z1 } t =
            ({ zoom := (z1.update t).1.clamp_scale, tman := v.tman,
               iman := v.iman } : Viewer).finish_transition t := by
          simp [Viewer.update_state, hbd, Viewer.handle_boundary, hne]
        rw [hval] at hupd
        refine lastImage_finish imgs m hlast
          ({ zoom := (z1.update t).1.clamp_scale, tman := v.tman,
             iman := v.iman } : Viewer) t v₁
          ⟨e1, ?_, ⟨e3a, e3b⟩, e4, e5, ?_⟩ hupd
        · show (z1.update t).1.clamp_scale.min_scale = m
          rw [c1, u1, hmin]
          exact e2
        · intro hcur
          have hcur' : v.iman.current_index = (imgs.length : ℤ) - 1 := hcur
          obtain ⟨hm6, hs6⟩ := e6 hcur'
          constructor
          · show (z1.update t).1.clamp_scale.current_max_scale = m
            rw [c2, u2, hmax]
            exact hm6
          · show (z1.update t).1.clamp_scale.scale ≤ m
            have hmm : (z1.update t).1.current_max_scale =
                (z1.update t).1.min_scale := by
              rw [u2, u1, hmax, hmin, hm6, e2]
            calc (z1.update t).1.clamp_scale.scale ≤
                (z1.update t).1.min_scale := c3 hmm
              _ = m := by rw [u1, hmin]; exact e2

/-- One full frame of the viewer loop preserves `LastImageInv` (input
processing is gated off during transitions and otherwise only touches the
scale through `zoom_step`/`zoom_continuous`). -/
theorem lastImage_tick (imgs : List ImageData) (m : ℚ)
    (hlast : ∀ img, imgs.get? (imgs.length - 1) = some img → img.max_scale = m)
    (v : Viewer) (i : TickInput) (v₁ : Viewer)
    (h : LastImageInv imgs m v) (htick : v.tick i = some v₁) :
    LastImageInv imgs m v₁ := by
  by_cases hact : v.tman.is_active = true
  · have hval : v.tick i =
        Viewer.update_state { v with zoom := v.zoom } i.t_upd := by
      simp [Viewer.tick, hact]
    rw [hval] at htick
    exact lastImage_update_state imgs m hlast v v.zoom i.t_upd v₁ h
      rfl rfl (fun _ => rfl) htick
  · have hval : v.tick i = Viewer.update_state
        { v with zoom :=
          i.actions.foldl (fun z a => applyAction z a i.t_act) v.zoom }
        i.t_upd := by
      simp [Viewer.tick, hact]
    rw [hval] at htick
    obtain ⟨f1, f2, -, f4⟩ := foldl_actions_spec i.t_act i.actions v.zoom
    exact lastImage_update_state imgs m hlast v _ i.t_upd v₁ h f1 f2 f4 htick

/-- C3 (amended): for an image without a target rectangle that has no NEXT
image (it is the catalog's last entry, `max_scale = min_scale`), no reachable
end-of-frame state of the viewer loop in which that image is current has
`scale > min_scale` — zoom-in fires the forward boundary and is immediately
clamped because `can_go_next` is false, whether or not a previous neighbor
exists (a backward transition leaves the scale below `min_scale` and changes
the current image on completion; a forward return resets the scale to
`min_scale`).  When a next image does exist, zoom-in instead starts a forward
transition and the scale transiently stays above `min_scale` until the
transition completes (see the counterexample). -/
theorem terminal_no_rect_scale_never_exceeds_min (imgs : List ImageData)
    (m : ℚ)
    (hlast : ∀ img, imgs.get? (imgs.length - 1) = some img → img.max_scale = m)
    (v : Viewer) (inputs : List TickInput) (h : LastImageInv imgs m v)
    (v' : Viewer) (hrun : v.run inputs = some v') :
    LastImageInv imgs m v' ∧
    (v'.iman.current_index = (imgs.length : ℤ) - 1 →
      v'.zoom.scale ≤ v'.zoom.min_scale) := by
  induction inputs generalizing v h with
  | nil =>
      simp only [Viewer.run] at hrun
      injection hrun with h'
      subst h'
      refine ⟨h, fun hcur => ?_⟩
      rw [h.2.1]
      exact (h.2.2.2.2.2 hcur).2
  | cons i rest ih =>
      cases htick : v.tick i with
      | none => simp [Viewer.run, htick] at hrun
      | some v1 =>
          simp only [Viewer.run, htick] at hrun
          exact ih v1 (lastImage_tick imgs m hlast v i v1 h htick) hrun

/-- Two-image catalog whose LAST image has no target rectangle
(`max_scale = 1`) while a previous neighbor (image 0, `max_scale = 3`)
exists: the setting of C3's amended theorem. -/
def imgsC3 : List ImageData :=
  [⟨⟨none, none⟩, 0, 0, 1, 0, 3⟩, ⟨⟨none, none⟩, 1, 1, 1, 1, 1⟩]

/-- Viewer idle on the terminal rect-less image (position 1). -/
def termViewerEx : Viewer :=
  { zoom := ZoomController.init
    tman := { TransitionManager.init [[5], []] with transition_idx := 1 }
    iman := { images := imgsC3, current_index := 1 } }

/-- One frame: a zoom-in tap, updated 16 ms later. -/
def termTickEx : TickInput := ⟨[ViewerAction.zoomStep "in"], 0, 16⟩

/-- End of that frame: the interpolated scale 127/125 fired the forward
boundary, `can_go_next` is false at the last image, so the clamp snapped the
scale back to 1. -/
def termFinalEx : Viewer :=
  { zoom := { scale := 1, min_scale := 1, current_max_scale := 1,
              animation_duration := 300, target_scale := 13/10,
              start_scale := 1, animation_start_time := 0,
              is_animating := false, step_zoom_factor := 13/10,
              continuous_zoom_rate := 2, continuous_zoom_active := false }
    tman := termViewerEx.tman
    iman := termViewerEx.iman }

/-- Witness for C3's amended theorem: terminal rect-less image with a
previous neighbor, one zoom-in frame, scale clamped back to `min_scale`. -/
theorem terminal_no_rect_scale_never_exceeds_min_witness :
    LastImageInv imgsC3 1 termViewerEx ∧
      termViewerEx.run [termTickEx] = some termFinalEx ∧
      termFinalEx.zoom.scale ≤ termFinalEx.zoom.min_scale := by
  have hlast : ∀ img, imgsC3.get? (imgsC3.length - 1) = some img →
      img.max_scale = 1 := by
    intro img himg
    simp [imgsC3] at himg
    rw [← himg]
  have hinv : LastImageInv imgsC3 1 termViewerEx := by
    refine ⟨rfl, rfl, ⟨by decide, by decide⟩, rfl, ?_, ?_⟩
    · intro hcon
      exact absurd hcon (by decide)
    · intro _
      exact ⟨rfl, le_refl _⟩
  have ht : termViewerEx.tick termTickEx = some termFinalEx := by
    norm_num [Viewer.tick, Viewer.update_state, Viewer.finish_transition,
      Viewer.handle_boundary, applyAction, ZoomController.zoom_step,
      ZoomController.start_zoom_animation, ZoomController.update,
      ZoomController.update_step_animation, ZoomController.check_boundaries,
      ZoomController.clamp_scale, TransitionManager.update,
      TransitionManager.is_active, ImageManager.can_go_next,
      termViewerEx, termTickEx, termFinalEx, imgsC3, ZoomController.init,
      TransitionManager.init, min_def]
  have hrun : termViewerEx.run [termTickEx] = some termFinalEx := by
    simp only [Viewer.run, ht]
  exact ⟨hinv, hrun,
    (terminal_no_rect_scale_never_exceeds_min imgsC3 1 hlast termViewerEx
      [termTickEx] hinv termFinalEx hrun).2 (by decide)⟩
